import Mathlib

/-!
Verification of the ragu web application front-end and client code.

This file gives a shallow embedding, in Lean 4, of the JavaScript/Python
client code of the repository:

* the Python WebSocket chat client (src/unnamed/part_000, chat_websocket);
* the tag-based Vue chat component (src/unnamed/part_004): submitQuery,
  selectConversation, deleteConversation, renameConversation, fetchTags,
  the availableTagsForSelection computed property and the onMounted
  saved-model restoration (the latter is identical in src/unnamed/part_005);
* the React PDF upload component (src/app/static/js/pdf-upload.js):
  handleFiles and uploadFiles.

Asynchronous handlers become pure state-transition functions: the state the
handler reads and writes is an explicit record, every HTTP response the
handler awaits is an explicit input, and the HTTP requests the handler
issues are returned as an explicit trace.  JavaScript strings are Lean
Strings; JavaScript array operations become the corresponding List
operations; absent JSON fields become Option.  DOM manipulation
(scrolling, focus, innerHTML) and localStorage writes have no observable
effect on the modelled state and are omitted.
-/

/-! ## String helpers

Kernel-friendly models of the JavaScript string operations used by the
code: trim, toLowerCase, endsWith, and the string comparison underlying
localeCompare (modelled as character-code lexicographic comparison).
-/

/-- Whitespace characters removed by the JavaScript trim used here
(space, tab, line feed, carriage return, vertical tab, form feed). -/
def isJsSpace (c : Char) : Bool :=
  c = ' ' || c = '\t' || c = '\n' || c = '\r' || c = '\x0b' || c = '\x0c'

/-- Model of JavaScript String.prototype.trim. -/
def trimStr (s : String) : String :=
  String.mk (((s.data.dropWhile isJsSpace).reverse.dropWhile isJsSpace).reverse)

/-- Model of JavaScript String.prototype.toLowerCase (ASCII case folding). -/
def lowerStr (s : String) : String :=
  String.mk (s.data.map Char.toLower)

/-- Model of JavaScript String.prototype.endsWith. -/
def endsWithStr (s suffixStr : String) : Bool :=
  suffixStr.data.isSuffixOf s.data

/-- Lexicographic comparison on character lists: charListLe a b is true when
a compares less-or-equal to b.  Models a localeCompare result that is at
most zero, for the default code-point collation. -/
def charListLe : List Char → List Char → Bool
  | [], _ => true
  | _ :: _, [] => false
  | a :: as, b :: bs =>
    if a < b then true
    else if b < a then false
    else charListLe as bs

/-- String form of charListLe; models a.localeCompare(b) being at most 0. -/
def localeLe (a b : String) : Bool :=
  charListLe a.data b.data

/-- Model of the JavaScript idiom v || dflt applied to a JSON field that
may be absent: an absent field or an empty string is falsy and yields the
default. -/
def jsOr (v : Option String) (dflt : String) : String :=
  match v with
  | some s => if s = "" then dflt else s
  | none => dflt

/-- Model of JavaScript truthiness of an optional string field: an absent
field or an empty string is falsy. -/
def jsPresent (v : Option String) : Option String :=
  match v with
  | some s => if s = "" then none else some s
  | none => none

/-! ## WebSocket chat client (src/unnamed/part_000, chat_websocket)

The receive loop of the Python client: it repeatedly awaits a JSON
message and dispatches on its "type" field.  The loop is modelled as a
function over the (finite prefix of the) arriving message sequence,
threading the accumulated full_response string.
-/

/-- A decoded WebSocket message: its "type" field and its "content"
payload (the payload is treated as an opaque value). -/
structure WsMsg where
  type : String
  content : String
deriving DecidableEq, Repr

/-- Outcome of the chat_websocket receive loop: the loop either returned
on a "complete" message (carrying that message's content), returned None
on an "error" message, or consumed every supplied message and is still
awaiting more.  Each outcome also records the accumulated full_response. -/
inductive WsOutcome where
  | complete (content : String) (full_response : String)
  | errored (full_response : String)
  | awaiting (full_response : String)
deriving DecidableEq, Repr

/-- The receive loop of chat_websocket: "token" messages append their
content to full_response and continue; a "complete" message returns its
content; an "error" message returns None; any other type is ignored. -/
def chat_websocket_loop : List WsMsg → String → WsOutcome
  | [], acc => WsOutcome.awaiting acc
  | m :: rest, acc =>
    if m.type = "token" then chat_websocket_loop rest (acc ++ m.content)
    else if m.type = "complete" then WsOutcome.complete m.content acc
    else if m.type = "error" then WsOutcome.errored acc
    else chat_websocket_loop rest acc

/-- The Python return value of chat_websocket for a loop outcome:
some (some c) when the loop returned data["content"] of a "complete"
message, some none when it returned None on an "error" message, and none
when the loop has not returned yet. -/
def ws_return : WsOutcome → Option (Option String)
  | WsOutcome.complete c _ => some (some c)
  | WsOutcome.errored _ => some none
  | WsOutcome.awaiting _ => none

/-- Concatenation, in arrival order, of the content of every message of
type "token" in a message list, starting from an accumulator. -/
def tokenConcat (msgs : List WsMsg) (acc : String) : String :=
  msgs.foldl (fun a m => if m.type = "token" then a ++ m.content else a) acc

theorem chat_websocket_loop_no_terminal (pre : List WsMsg) (m : WsMsg)
    (rest : List WsMsg) (acc : String)
    (hpre : ∀ x ∈ pre, x.type ≠ "complete" ∧ x.type ≠ "error") :
    chat_websocket_loop (pre ++ m :: rest) acc =
      chat_websocket_loop (m :: rest) (tokenConcat pre acc) := by
  induction pre generalizing acc with
  | nil => rfl
  | cons x xs ih =>
    have hx := hpre x (List.mem_cons_self x xs)
    have hxs : ∀ y ∈ xs, y.type ≠ "complete" ∧ y.type ≠ "error" := by
      intro y hy
      exact hpre y (List.mem_cons_of_mem x hy)
    by_cases htok : x.type = "token"
    · simp only [List.cons_append, chat_websocket_loop, htok, if_pos, tokenConcat,
        List.foldl_cons, if_true]
      exact ih (acc ++ x.content) hxs
    · simp only [List.cons_append, chat_websocket_loop, htok, if_neg, hx.1, hx.2,
        if_false, tokenConcat, List.foldl_cons]
      simpa [tokenConcat, htok] using ih acc hxs

/-- C3: for every sequence of WebSocket messages, the client concatenates
the content of every "token" message in arrival order into the accumulated
response; it terminates exactly at the first "complete" or "error"
message, returning that message's content on "complete" and None on
"error", regardless of any messages that follow. -/
theorem chat_websocket_terminates_on_first_terminal
    (pre rest : List WsMsg) (c : String)
    (hpre : ∀ x ∈ pre, x.type ≠ "complete" ∧ x.type ≠ "error") :
    chat_websocket_loop (pre ++ { type := "complete", content := c } :: rest) "" =
        WsOutcome.complete c (tokenConcat pre "")
      ∧ ws_return (chat_websocket_loop
          (pre ++ { type := "complete", content := c } :: rest) "") = some (some c)
      ∧ chat_websocket_loop (pre ++ { type := "error", content := c } :: rest) "" =
        WsOutcome.errored (tokenConcat pre "")
      ∧ ws_return (chat_websocket_loop
          (pre ++ { type := "error", content := c } :: rest) "") = some none := by
  have hc := chat_websocket_loop_no_terminal pre
    { type := "complete", content := c } rest "" hpre
  have he := chat_websocket_loop_no_terminal pre
    { type := "error", content := c } rest "" hpre
  refine ⟨?_, ?_, ?_, ?_⟩
  · rw [hc]; rfl
  · rw [hc]; rfl
  · rw [he]; rfl
  · rw [he]; rfl

/-- C3 witness: a concrete run with two tokens, an ignored message, then a
terminal message; the loop accumulates "Hello world" and stops at the
terminal message, ignoring the trailing token. -/
theorem chat_websocket_terminates_on_first_terminal_witness :
    chat_websocket_loop
        ([{ type := "token", content := "Hello" },
          { type := "status", content := "retrieving" },
          { type := "token", content := " world" }] ++
          { type := "complete", content := "done" } ::
            [{ type := "token", content := "late" }]) "" =
      WsOutcome.complete "done" (tokenConcat
        [{ type := "token", content := "Hello" },
         { type := "status", content := "retrieving" },
         { type := "token", content := " world" }] "") := by
  exact (chat_websocket_terminates_on_first_terminal
    [{ type := "token", content := "Hello" },
     { type := "status", content := "retrieving" },
     { type := "token", content := " world" }]
    [{ type := "token", content := "late" }] "done" (by decide)).1

/-! ## Tag-based chat component state (src/unnamed/part_004)

The reactive refs of the ModelQueryComponent become one state record; the
availableModels constant is the list literal at the top of the file.
-/

/-- One entry of the availableModels constant. -/
structure ModelOption where
  value : String
  label : String
deriving DecidableEq, Repr

/-- The availableModels list defined at the top of the component file. -/
def availableModels : List ModelOption :=
  [{ value := "ollama:llama2", label := "Ollama: Llama 2" },
   { value := "ollama:mistral", label := "Ollama: Mistral" },
   { value := "ollama:nomic-embed-text", label := "Ollama: Nomic Embed Text" },
   { value := "anthropic:claude-3-haiku-20240307", label := "Anthropic: Claude 3 Haiku" },
   { value := "anthropic:claude-3-sonnet-20240229", label := "Anthropic: Claude 3 Sonnet" },
   { value := "anthropic:claude-3-opus-20240229", label := "Anthropic: Claude 3 Opus" },
   { value := "openai:gpt-4o", label := "OpenAI: GPT-4o" },
   { value := "openai:gpt-4-turbo", label := "OpenAI: GPT-4 Turbo" },
   { value := "openai:gpt-3.5-turbo", label := "OpenAI: GPT-3.5 Turbo" }]

/-- One message of a conversation history: a role ("user" or "assistant")
and its content. -/
structure ChatMessage where
  role : String
  content : String
deriving DecidableEq, Repr

/-- A conversation object as returned by the conversations API: id, title,
ordered message list, and the optional tags / include_untagged / model
fields (absent JSON fields are none). -/
structure Conversation where
  id : String
  title : String
  messages : List ChatMessage
  tags : Option (List String)
  include_untagged : Option Bool
  model : Option String
deriving DecidableEq, Repr

/-- Body of the POST /api/v1/chat/ request built by submitQuery. -/
structure ChatRequestBody where
  query : String
  history : List ChatMessage
  tags : List String
  include_untagged : Bool
  model : Option String
  conversation_id : Option String
deriving DecidableEq, Repr

/-- Body of a successful POST /api/v1/chat/ response. -/
structure ChatSuccessBody where
  history : List ChatMessage
  sources : List String
  conversation_id : Option String
deriving DecidableEq, Repr

/-- An HTTP request issued by the component, with the data relevant to
each endpoint. -/
inductive ApiRequest where
  | chatPost (body : ChatRequestBody)
  | conversationPrefsPut (id : String) (tags : List String) (include_untagged : Bool)
  | tagsGet
  | conversationsGet
  | conversationGet (id : String)
  | conversationPut (id : String) (title : String)
  | conversationDelete (id : String)
  | documentUpload (fileName : String) (collection : String) (tags : Option String)
deriving DecidableEq, Repr

/-- Outcome of an awaited fetch: an ok response carrying the parsed JSON
body, a non-ok response carrying the optional detail field of its JSON
error body, or a rejected promise carrying the error message. -/
inductive FetchOutcome (α : Type) where
  | ok (body : α)
  | notOk (detail : Option String)
  | thrown (message : String)
deriving DecidableEq, Repr

/-- Body of a successful GET /api/v1/tags/ response: the optional tags
list and tag_counts object (an association from tag to document count). -/
structure TagsBody where
  tags : Option (List String)
  tag_counts : Option (List (String × Nat))
deriving DecidableEq, Repr

/-- The reactive state of the tag-based ModelQueryComponent. -/
structure TagQueryState where
  availableTags : List String
  tagCounts : List (String × Nat)
  selectedTags : List String
  includeUntagged : Bool
  tagSearchQuery : String
  selectedModel : String
  queryText : String
  isLoading : Bool
  error : String
  results : Option ChatSuccessBody
  conversationHistory : List ChatMessage
  lastSources : List String
  conversations : List Conversation
  currentConversationId : Option String
deriving DecidableEq, Repr

/-- The canSubmit computed property: the trimmed query text is non-empty. -/
def canSubmit (s : TagQueryState) : Bool :=
  (trimStr s.queryText).length > 0

/-- The fetchTags handler applied to its awaited response: on ok it
replaces availableTags and tagCounts (absent fields defaulting to empty),
otherwise it records an error message. -/
def fetchTagsApply (s : TagQueryState) (r : FetchOutcome TagsBody) : TagQueryState :=
  match r with
  | FetchOutcome.ok data =>
    { s with availableTags := data.tags.getD [],
             tagCounts := data.tag_counts.getD [] }
  | FetchOutcome.notOk _ =>
    { s with error := "Failed to fetch tags. Please try again." }
  | FetchOutcome.thrown m =>
    { s with error := "Error fetching tags: " ++ m }

/-! ## submitQuery (src/unnamed/part_004, lines 666-779)

The handler is split at its await point: submitQueryPending is the state
after the synchronous prefix (user message pushed, query text cleared,
loading set), submitQueryRequest is the request body it sends, and
submitQuery combines them with the awaited response.  The fire-and-forget
calls of the success branch (updateConversationTagPreferences, the
sidebar refresh hook, fetchTags) are recorded in the request trace; their
responses arrive after submitQuery returns and are not applied here.
-/

/-- The user message pushed onto the conversation history by submitQuery. -/
def userMessage (q : String) : ChatMessage :=
  { role := "user", content := q }

/-- State of the component after the synchronous prefix of submitQuery:
the user message is appended to the history, the query text is cleared,
loading is set and the error cleared. -/
def submitQueryPending (s : TagQueryState) : TagQueryState :=
  { s with conversationHistory := s.conversationHistory ++ [userMessage s.queryText],
           queryText := "",
           isLoading := true,
           error := "" }

/-- The request body sent by submitQuery: the submitted query, the history
excluding the just-appended user message, the selected tags and
include_untagged flag, the selected model when non-empty, and the current
conversation id when present. -/
def submitQueryRequest (s : TagQueryState) : ChatRequestBody :=
  { query := s.queryText,
    history := (submitQueryPending s).conversationHistory.dropLast,
    tags := s.selectedTags,
    include_untagged := s.includeUntagged,
    model := if s.selectedModel = "" then none else some s.selectedModel,
    conversation_id := s.currentConversationId }

/-- The submitQuery handler of the tag-based component, as a function of
the pre-state and the awaited outcome of the POST /api/v1/chat/ fetch.
Returns the post-state and the trace of issued requests. -/
def submitQuery (s : TagQueryState) (r : FetchOutcome ChatSuccessBody) :
    TagQueryState × List ApiRequest :=
  if canSubmit s = false then (s, [])
  else
    let currentQuery := s.queryText
    let pending := submitQueryPending s
    let req := ApiRequest.chatPost (submitQueryRequest s)
    match r with
    | FetchOutcome.ok data =>
      let s2 :=
        { pending with
            results := some data,
            conversationHistory := data.history,
            lastSources := data.sources,
            currentConversationId :=
              match jsPresent data.conversation_id with
              | some cid => some cid
              | none => pending.currentConversationId,
            isLoading := false }
      let followUps :=
        (match jsPresent data.conversation_id with
         | some cid =>
           [ApiRequest.conversationPrefsPut cid s.selectedTags s.includeUntagged]
         | none => []) ++ [ApiRequest.conversationsGet, ApiRequest.tagsGet]
      (s2, req :: followUps)
    | FetchOutcome.notOk detail =>
      ({ pending with
          conversationHistory := pending.conversationHistory.dropLast,
          queryText := currentQuery,
          error := jsOr detail "Failed to process query. Please try again.",
          isLoading := false }, [req])
    | FetchOutcome.thrown m =>
      ({ pending with
          conversationHistory := pending.conversationHistory.dropLast,
          queryText := currentQuery,
          error := "Error submitting query: " ++ m,
          isLoading := false }, [req])

/-- A convenient concrete component state for witnesses. -/
def tagState0 : TagQueryState :=
  { availableTags := ["alpha", "beta"],
    tagCounts := [("alpha", 2), ("beta", 1)],
    selectedTags := ["beta"],
    includeUntagged := true,
    tagSearchQuery := "",
    selectedModel := "",
    queryText := "what is ragu?",
    isLoading := false,
    error := "",
    results := none,
    conversationHistory := [{ role := "user", content := "hi" },
                            { role := "assistant", content := "hello" }],
    lastSources := [],
    conversations :=
      [{ id := "c1", title := "first", messages := [], tags := none,
         include_untagged := none, model := none },
       { id := "c2", title := "second", messages := [], tags := some ["alpha"],
         include_untagged := some false, model := some "ollama:llama2" }],
    currentConversationId := some "c1" }

/-- C1: in the tag-based chat component, a non-blank submitted query is
appended to the conversation history as a user message before the request
is sent; when the POST to /api/v1/chat/ comes back non-ok or the fetch
throws, that user message is removed again, the query text is restored to
the submitted query, and the error becomes the response body's detail
field when it is a non-empty string and a generic message otherwise — so
the history and the query text end up exactly as before the submission. -/
theorem submitQuery_error_rolls_back (s : TagQueryState)
    (r : FetchOutcome ChatSuccessBody)
    (hcan : canSubmit s = true)
    (herr : ∀ b, r ≠ FetchOutcome.ok b) :
    (submitQueryPending s).conversationHistory =
        s.conversationHistory ++ [userMessage s.queryText]
      ∧ (submitQuery s r).2 = [ApiRequest.chatPost (submitQueryRequest s)]
      ∧ (submitQuery s r).1.conversationHistory = s.conversationHistory
      ∧ (submitQuery s r).1.queryText = s.queryText
      ∧ (∀ d, r = FetchOutcome.notOk (some d) → d ≠ "" →
          (submitQuery s r).1.error = d)
      ∧ (r = FetchOutcome.notOk none ∨ r = FetchOutcome.notOk (some "") →
          (submitQuery s r).1.error = "Failed to process query. Please try again.")
      ∧ (∀ m, r = FetchOutcome.thrown m →
          (submitQuery s r).1.error = "Error submitting query: " ++ m) := by
  have hnot : ¬ canSubmit s = false := by simp [hcan]
  cases r with
  | ok b => exact absurd rfl (herr b)
  | notOk detail =>
    refine ⟨rfl, ?_, ?_, ?_, ?_, ?_, ?_⟩
    · simp [submitQuery, hnot]
    · simp [submitQuery, hnot, submitQueryPending, List.dropLast_concat]
    · simp [submitQuery, hnot]
    · intro d hd hne
      cases hd
      simp [submitQuery, hnot, jsOr, hne]
    · intro hcase
      rcases hcase with h | h <;> cases h <;> simp [submitQuery, hnot, jsOr]
    · intro m hm
      cases hm
  | thrown msg =>
    refine ⟨rfl, ?_, ?_, ?_, ?_, ?_, ?_⟩
    · simp [submitQuery, hnot]
    · simp [submitQuery, hnot, submitQueryPending, List.dropLast_concat]
    · simp [submitQuery, hnot]
    · intro d hd hne
      cases hd
    · intro hcase
      rcases hcase with h | h <;> cases h
    · intro m hm
      cases hm
      simp [submitQuery, hnot]

/-- C1 witness: submitting a concrete non-blank query against a non-ok
response with detail "model not available" rolls the state back. -/
theorem submitQuery_error_rolls_back_witness :
    (submitQueryPending tagState0).conversationHistory =
        tagState0.conversationHistory ++ [userMessage tagState0.queryText]
      ∧ (submitQuery tagState0 (FetchOutcome.notOk (some "model not available"))).2 =
          [ApiRequest.chatPost (submitQueryRequest tagState0)]
      ∧ (submitQuery tagState0
            (FetchOutcome.notOk (some "model not available"))).1.conversationHistory =
          tagState0.conversationHistory
      ∧ (submitQuery tagState0
            (FetchOutcome.notOk (some "model not available"))).1.queryText =
          tagState0.queryText
      ∧ (∀ d, FetchOutcome.notOk (some "model not available") =
            (FetchOutcome.notOk (some d) : FetchOutcome ChatSuccessBody) → d ≠ "" →
          (submitQuery tagState0
            (FetchOutcome.notOk (some "model not available"))).1.error = d)
      ∧ ((FetchOutcome.notOk (some "model not available") :
            FetchOutcome ChatSuccessBody) = FetchOutcome.notOk none ∨
          (FetchOutcome.notOk (some "model not available") :
            FetchOutcome ChatSuccessBody) = FetchOutcome.notOk (some "") →
          (submitQuery tagState0
            (FetchOutcome.notOk (some "model not available"))).1.error =
            "Failed to process query. Please try again.")
      ∧ (∀ m, FetchOutcome.notOk (some "model not available") =
            (FetchOutcome.thrown m : FetchOutcome ChatSuccessBody) →
          (submitQuery tagState0
            (FetchOutcome.notOk (some "model not available"))).1.error =
            "Error submitting query: " ++ m) :=
  submitQuery_error_rolls_back tagState0
    (FetchOutcome.notOk (some "model not available"))
    (by decide) (fun b h => by cases h)

/-- Number of POST /api/v1/chat/ requests in a request trace. -/
def chatPostCount (rs : List ApiRequest) : Nat :=
  (rs.filter fun r =>
    match r with
    | ApiRequest.chatPost _ => true
    | _ => false).length

/-- C7: one invocation of submitQuery issues at most one request to
/api/v1/chat/, whatever the outcome of the fetch; in particular a failed
request is never retried within the invocation. -/
theorem submitQuery_at_most_one_chat_request (s : TagQueryState)
    (r : FetchOutcome ChatSuccessBody) :
    chatPostCount (submitQuery s r).2 ≤ 1 := by
  by_cases hcan : canSubmit s = false
  · simp [submitQuery, hcan, chatPostCount]
  · cases r with
    | ok data =>
      cases hcid : jsPresent data.conversation_id with
      | some cid => simp [submitQuery, hcan, chatPostCount, hcid]
      | none => simp [submitQuery, hcan, chatPostCount, hcid]
    | notOk detail => simp [submitQuery, hcan, chatPostCount]
    | thrown m => simp [submitQuery, hcan, chatPostCount]

/-! ## selectConversation (src/unnamed/part_004, lines 551-601)

On an ok GET /api/v1/conversations/id response the handler sets the
current conversation id and history, awaits fetchTags (whose response is
a second explicit input), then applies the conversation's tags,
include_untagged and model fields.
-/

/-- The selectConversation handler, as a function of the pre-state, the
requested conversation id, the awaited conversation response and the
awaited tags response of the inner fetchTags call. -/
def selectConversation (s : TagQueryState) (conversationId : String)
    (r : FetchOutcome Conversation) (tagsResp : FetchOutcome TagsBody) :
    TagQueryState × List ApiRequest :=
  match r with
  | FetchOutcome.ok conversation =>
    let s1 := { s with currentConversationId := some conversationId,
                       conversationHistory := conversation.messages }
    let s2 := fetchTagsApply s1 tagsResp
    let s3 :=
      { s2 with
          selectedTags :=
            match conversation.tags with
            | some tags => tags
            | none => [],
          includeUntagged :=
            match conversation.include_untagged with
            | some b => b
            | none => true,
          selectedModel :=
            match jsPresent conversation.model with
            | some m => m
            | none => s2.selectedModel }
    (s3, [ApiRequest.conversationGet conversationId, ApiRequest.tagsGet])
  | FetchOutcome.notOk detail =>
    ({ s with error := "Failed to load conversation: " ++ jsOr detail "Unknown error" },
     [ApiRequest.conversationGet conversationId])
  | FetchOutcome.thrown m =>
    ({ s with error := "Error loading conversation: " ++ m },
     [ApiRequest.conversationGet conversationId])

/-- C2: for every conversation object returned ok by the conversations
API, selectConversation sets the current conversation id to the requested
id, replaces the history with the conversation's messages, sets the
selected tags to the conversation's tags (empty when absent), sets
includeUntagged to the conversation's include_untagged (true when
undefined), and changes the selected model only to a model the
conversation carries. -/
theorem selectConversation_applies_conversation (s : TagQueryState)
    (conversationId : String) (conversation : Conversation)
    (tagsResp : FetchOutcome TagsBody) :
    (selectConversation s conversationId
        (FetchOutcome.ok conversation) tagsResp).1.currentConversationId =
        some conversationId
      ∧ (selectConversation s conversationId
          (FetchOutcome.ok conversation) tagsResp).1.conversationHistory =
          conversation.messages
      ∧ (selectConversation s conversationId
          (FetchOutcome.ok conversation) tagsResp).1.selectedTags =
          conversation.tags.getD []
      ∧ (selectConversation s conversationId
          (FetchOutcome.ok conversation) tagsResp).1.includeUntagged =
          conversation.include_untagged.getD true
      ∧ (∀ m, conversation.model = some m → m ≠ "" →
          (selectConversation s conversationId
            (FetchOutcome.ok conversation) tagsResp).1.selectedModel = m)
      ∧ ((selectConversation s conversationId
            (FetchOutcome.ok conversation) tagsResp).1.selectedModel ≠
            s.selectedModel →
          conversation.model =
            some (selectConversation s conversationId
              (FetchOutcome.ok conversation) tagsResp).1.selectedModel) := by
  have hfetch : ∀ s1 : TagQueryState,
      (fetchTagsApply s1 tagsResp).currentConversationId = s1.currentConversationId
        ∧ (fetchTagsApply s1 tagsResp).conversationHistory = s1.conversationHistory
        ∧ (fetchTagsApply s1 tagsResp).selectedModel = s1.selectedModel := by
    intro s1
    cases tagsResp <;> simp [fetchTagsApply]
  refine ⟨?_, ?_, ?_, ?_, ?_, ?_⟩
  · simp [selectConversation, (hfetch _).1]
  · simp [selectConversation, (hfetch _).2.1]
  · cases htags : conversation.tags <;> simp [selectConversation, htags]
  · cases hinc : conversation.include_untagged <;> simp [selectConversation, hinc]
  · intro m hm hne
    simp [selectConversation, hm, jsPresent, hne]
  · intro hchanged
    cases hmod : jsPresent conversation.model with
    | some m =>
      cases hm : conversation.model with
      | some v =>
        simp only [jsPresent, hm] at hmod
        by_cases hv : v = ""
        · simp [hv] at hmod
        · simp [hv] at hmod
          subst hmod
          simp [selectConversation, hm, jsPresent, hv]
      | none => simp [jsPresent, hm] at hmod
    | none =>
      exact absurd (by simp [selectConversation, hmod, (hfetch _).2.2]) hchanged

/-- C2 witness: loading a concrete conversation carrying tags, an
include_untagged flag and a model applies all of them. -/
theorem selectConversation_applies_conversation_witness :
    (selectConversation tagState0 "c2"
        (FetchOutcome.ok
          { id := "c2", title := "second",
            messages := [{ role := "user", content := "q" }],
            tags := some ["alpha"], include_untagged := some false,
            model := some "ollama:mistral" })
        (FetchOutcome.ok { tags := some ["alpha", "beta"],
                           tag_counts := some [("alpha", 2)] })).1.currentConversationId =
        some "c2"
      ∧ (selectConversation tagState0 "c2"
          (FetchOutcome.ok
            { id := "c2", title := "second",
              messages := [{ role := "user", content := "q" }],
              tags := some ["alpha"], include_untagged := some false,
              model := some "ollama:mistral" })
          (FetchOutcome.ok { tags := some ["alpha", "beta"],
                             tag_counts := some [("alpha", 2)] })).1.conversationHistory =
          [{ role := "user", content := "q" }]
      ∧ (selectConversation tagState0 "c2"
          (FetchOutcome.ok
            { id := "c2", title := "second",
              messages := [{ role := "user", content := "q" }],
              tags := some ["alpha"], include_untagged := some false,
              model := some "ollama:mistral" })
          (FetchOutcome.ok { tags := some ["alpha", "beta"],
                             tag_counts := some [("alpha", 2)] })).1.selectedTags =
          (some ["alpha"]).getD []
      ∧ (selectConversation tagState0 "c2"
          (FetchOutcome.ok
            { id := "c2", title := "second",
              messages := [{ role := "user", content := "q" }],
              tags := some ["alpha"], include_untagged := some false,
              model := some "ollama:mistral" })
          (FetchOutcome.ok { tags := some ["alpha", "beta"],
                             tag_counts := some [("alpha", 2)] })).1.includeUntagged =
          (some false).getD true
      ∧ (selectConversation tagState0 "c2"
          (FetchOutcome.ok
            { id := "c2", title := "second",
              messages := [{ role := "user", content := "q" }],
              tags := some ["alpha"], include_untagged := some false,
              model := some "ollama:mistral" })
          (FetchOutcome.ok { tags := some ["alpha", "beta"],
                             tag_counts := some [("alpha", 2)] })).1.selectedModel =
          "ollama:mistral" := by
  have h := selectConversation_applies_conversation tagState0 "c2"
    { id := "c2", title := "second",
      messages := [{ role := "user", content := "q" }],
      tags := some ["alpha"], include_untagged := some false,
      model := some "ollama:mistral" }
    (FetchOutcome.ok { tags := some ["alpha", "beta"],
                       tag_counts := some [("alpha", 2)] })
  exact ⟨h.1, h.2.1, h.2.2.1, h.2.2.2.1,
    h.2.2.2.2.1 "ollama:mistral" rfl (by decide)⟩

/-! ## deleteConversation (src/unnamed/part_004, lines 831-855) -/

/-- The deleteConversation handler, as a function of the pre-state, the
deleted conversation id and the awaited outcome of the DELETE fetch.  On
ok it filters the conversation out of the list and clears the current
conversation when it was the deleted one; otherwise it records an error. -/
def deleteConversation (s : TagQueryState) (conversationId : String)
    (r : FetchOutcome Unit) : TagQueryState × List ApiRequest :=
  let reqs := [ApiRequest.conversationDelete conversationId]
  match r with
  | FetchOutcome.ok _ =>
    let s1 := { s with conversations :=
      s.conversations.filter (fun c => c.id ≠ conversationId) }
    if s.currentConversationId = some conversationId then
      ({ s1 with currentConversationId := none, conversationHistory := [] }, reqs)
    else (s1, reqs)
  | FetchOutcome.notOk detail =>
    ({ s with error :=
        "Failed to delete conversation: " ++ jsOr detail "Unknown error" }, reqs)
  | FetchOutcome.thrown m =>
    ({ s with error := "Error deleting conversation: " ++ m }, reqs)

/-- C4: on an ok DELETE response, exactly the conversations with the
deleted id leave the local list — the remaining list is a sublist of the
old one and membership drops precisely the deleted id — and the current
conversation id and history are cleared exactly when the deleted id was
current, being otherwise untouched; on a non-ok response or a thrown
fetch, list, current id and history are all unchanged. -/
theorem deleteConversation_removes_exactly (s : TagQueryState)
    (conversationId : String) (r : FetchOutcome Unit) :
    (r = FetchOutcome.ok () →
        (deleteConversation s conversationId r).1.conversations.Sublist
            s.conversations
          ∧ (∀ c, c ∈ (deleteConversation s conversationId r).1.conversations ↔
              c ∈ s.conversations ∧ c.id ≠ conversationId)
          ∧ (s.currentConversationId = some conversationId →
              (deleteConversation s conversationId r).1.currentConversationId = none
                ∧ (deleteConversation s conversationId r).1.conversationHistory = [])
          ∧ (s.currentConversationId ≠ some conversationId →
              (deleteConversation s conversationId r).1.currentConversationId =
                  s.currentConversationId
                ∧ (deleteConversation s conversationId r).1.conversationHistory =
                  s.conversationHistory))
      ∧ (r ≠ FetchOutcome.ok () →
          (deleteConversation s conversationId r).1.conversations = s.conversations
            ∧ (deleteConversation s conversationId r).1.currentConversationId =
                s.currentConversationId
            ∧ (deleteConversation s conversationId r).1.conversationHistory =
                s.conversationHistory) := by
  constructor
  · intro hok
    subst hok
    by_cases hcur : s.currentConversationId = some conversationId
    · refine ⟨?_, ?_, ?_, ?_⟩
      · simp [deleteConversation, hcur, List.filter_sublist]
      · intro c
        simp [deleteConversation, hcur, List.mem_filter]
      · intro _
        simp [deleteConversation, hcur]
      · intro hne
        exact absurd hcur hne
    · refine ⟨?_, ?_, ?_, ?_⟩
      · simp [deleteConversation, hcur, List.filter_sublist]
      · intro c
        simp [deleteConversation, hcur, List.mem_filter]
      · intro hcur2
        exact absurd hcur2 hcur
      · intro _
        simp [deleteConversation, hcur]
  · intro hne
    cases r with
    | ok u => cases u; exact absurd rfl hne
    | notOk detail => simp [deleteConversation]
    | thrown m => simp [deleteConversation]

/-- C4 witness: deleting the current conversation "c1" of the concrete
state removes exactly that entry and clears the current conversation. -/
theorem deleteConversation_removes_exactly_witness :
    (deleteConversation tagState0 "c1" (FetchOutcome.ok ())).1.conversations.Sublist
        tagState0.conversations
      ∧ (∀ c, c ∈ (deleteConversation tagState0 "c1"
            (FetchOutcome.ok ())).1.conversations ↔
          c ∈ tagState0.conversations ∧ c.id ≠ "c1")
      ∧ (deleteConversation tagState0 "c1"
          (FetchOutcome.ok ())).1.currentConversationId = none
      ∧ (deleteConversation tagState0 "c1"
          (FetchOutcome.ok ())).1.conversationHistory = [] := by
  have h := (deleteConversation_removes_exactly tagState0 "c1"
    (FetchOutcome.ok ())).1 rfl
  have hcur : tagState0.currentConversationId = some "c1" := by decide
  exact ⟨h.1, h.2.1, (h.2.2.1 hcur).1, (h.2.2.1 hcur).2⟩

/-! ## renameConversation (src/unnamed/part_004, lines 782-821)

The prompt result is an explicit input (none models a cancelled prompt).
The findIndex-and-assign update of the conversations list is replaceById.
-/

/-- The findIndex-and-assign step of renameConversation: locate the first
list entry with the target id and overwrite it; when findIndex misses
(index -1) the list is left alone. -/
def replaceById (conversations : List Conversation) (targetId : String)
    (updated : Conversation) : List Conversation :=
  match conversations.findIdx? (fun c => c.id = targetId) with
  | some index => conversations.set index updated
  | none => conversations

theorem replaceById_cons (c : Conversation) (cs : List Conversation)
    (t : String) (u : Conversation) :
    replaceById (c :: cs) t u =
      if c.id = t then u :: cs else c :: replaceById cs t u := by
  unfold replaceById
  rw [show (c :: cs).findIdx? (fun x => x.id = t) =
      if c.id = t then some 0
      else ((cs.findIdx? (fun x => x.id = t)).map (· + 1)) from by
    simp [List.findIdx?_cons]]
  by_cases h : c.id = t
  · simp [h]
  · simp only [h, if_false]
    cases hf : cs.findIdx? (fun x => x.id = t) with
    | some i => simp [List.set]
    | none => simp

theorem replaceById_length (l : List Conversation) (t : String)
    (u : Conversation) : (replaceById l t u).length = l.length := by
  induction l with
  | nil => rfl
  | cons c cs ih =>
    rw [replaceById_cons]
    by_cases h : c.id = t <;> simp [h, ih]

theorem replaceById_getElem_ne (l : List Conversation) (t : String)
    (u : Conversation) :
    ∀ (j : Nat) (c0 : Conversation), l[j]? = some c0 → c0.id ≠ t →
      (replaceById l t u)[j]? = some c0 := by
  induction l with
  | nil => intro j c0 h; simp at h
  | cons c cs ih =>
    intro j c0 hget hne
    rw [replaceById_cons]
    by_cases h : c.id = t
    · cases j with
      | zero =>
        simp at hget
        exact absurd (hget ▸ h) hne
      | succ j =>
        simp only [h, if_true, List.getElem?_cons_succ]
        simpa using hget
    · cases j with
      | zero =>
        simp only [h, if_false, List.getElem?_cons_zero]
        simpa using hget
      | succ j =>
        simp only [h, if_false, List.getElem?_cons_succ]
        exact ih j c0 (by simpa using hget) hne

theorem replaceById_getElem_changed (l : List Conversation) (t : String)
    (u : Conversation) :
    ∀ (j : Nat), (replaceById l t u)[j]? ≠ l[j]? →
      (replaceById l t u)[j]? = some u := by
  induction l with
  | nil => intro j h; exact absurd rfl h
  | cons c cs ih =>
    intro j hchanged
    rw [replaceById_cons] at hchanged ⊢
    by_cases h : c.id = t
    · cases j with
      | zero => simp [h]
      | succ j =>
        simp only [h, if_true, List.getElem?_cons_succ] at hchanged
        exact absurd rfl hchanged
    · cases j with
      | zero =>
        simp only [h, if_false, List.getElem?_cons_zero] at hchanged
        exact absurd rfl hchanged
      | succ j =>
        simp only [h, if_false, List.getElem?_cons_succ] at hchanged ⊢
        exact ih j hchanged

/-- The renameConversation handler, as a function of the pre-state, the
conversation being renamed, the prompt result (none when cancelled) and
the awaited outcome of the PUT fetch. -/
def renameConversation (s : TagQueryState) (conversation : Conversation)
    (promptResult : Option String) (r : FetchOutcome Conversation) :
    TagQueryState × List ApiRequest :=
  match promptResult with
  | none => (s, [])
  | some newTitle =>
    if newTitle = "" then (s, [])
    else if trimStr newTitle = "" then (s, [])
    else
      let reqs := [ApiRequest.conversationPut conversation.id (trimStr newTitle)]
      match r with
      | FetchOutcome.ok updatedConversation =>
        ({ s with conversations :=
            replaceById s.conversations conversation.id updatedConversation }, reqs)
      | FetchOutcome.notOk detail =>
        ({ s with error :=
            "Failed to rename conversation: " ++ jsOr detail "Unknown error" }, reqs)
      | FetchOutcome.thrown m =>
        ({ s with error := "Error renaming conversation: " ++ m }, reqs)

/-- C5: renameConversation sends a PUT with the trimmed title exactly when
the prompt returns a title that is non-empty after trimming; a cancelled
prompt or a blank title sends nothing and changes nothing; and on an ok
response every list entry whose id differs from the renamed conversation
is untouched, the list keeps its length, and any entry that did change is
the server's updated conversation object. -/
theorem renameConversation_replaces_only_match (s : TagQueryState)
    (conversation : Conversation) (promptResult : Option String)
    (r : FetchOutcome Conversation) :
    ((promptResult = none ∨ (∃ t, promptResult = some t ∧ trimStr t = "")) →
        renameConversation s conversation promptResult r = (s, []))
      ∧ (∀ t, promptResult = some t → trimStr t ≠ "" →
          (renameConversation s conversation promptResult r).2 =
            [ApiRequest.conversationPut conversation.id (trimStr t)])
      ∧ (∀ t updated, promptResult = some t → trimStr t ≠ "" →
          r = FetchOutcome.ok updated →
          (renameConversation s conversation promptResult r).1.conversations.length =
              s.conversations.length
            ∧ (∀ (j : Nat) (c0 : Conversation), s.conversations[j]? = some c0 →
                c0.id ≠ conversation.id →
                (renameConversation s conversation
                  promptResult r).1.conversations[j]? = some c0)
            ∧ (∀ (j : Nat),
                (renameConversation s conversation
                    promptResult r).1.conversations[j]? ≠ s.conversations[j]? →
                (renameConversation s conversation
                  promptResult r).1.conversations[j]? = some updated)) := by
  have htrimnil : trimStr "" = "" := by decide
  refine ⟨?_, ?_, ?_⟩
  · intro hcase
    rcases hcase with h | ⟨t, ht, htrim⟩
    · subst h; rfl
    · subst ht
      by_cases ht0 : t = ""
      · simp [renameConversation, ht0]
      · simp [renameConversation, ht0, htrim]
  · intro t ht htrim
    subst ht
    have ht0 : t ≠ "" := by
      intro h
      exact htrim (h ▸ htrimnil)
    cases r <;> simp [renameConversation, ht0, htrim]
  · intro t updated ht htrim hr
    subst ht
    subst hr
    have ht0 : t ≠ "" := by
      intro h
      exact htrim (h ▸ htrimnil)
    have hconvs : (renameConversation s conversation (some t)
        (FetchOutcome.ok updated)).1.conversations =
        replaceById s.conversations conversation.id updated := by
      simp [renameConversation, ht0, htrim]
    rw [hconvs]
    exact ⟨replaceById_length s.conversations conversation.id updated,
      replaceById_getElem_ne s.conversations conversation.id updated,
      replaceById_getElem_changed s.conversations conversation.id updated⟩

/-- C5 witness: renaming the conversation "c2" of the concrete state with
the prompt answer "  New Title  " sends one PUT with the trimmed title
and leaves the entry "c1" untouched. -/
theorem renameConversation_replaces_only_match_witness :
    (renameConversation tagState0
        { id := "c2", title := "second", messages := [], tags := some ["alpha"],
          include_untagged := some false, model := some "ollama:llama2" }
        (some "  New Title  ")
        (FetchOutcome.ok
          { id := "c2", title := "New Title", messages := [], tags := some ["alpha"],
            include_untagged := some false, model := some "ollama:llama2" })).2 =
        [ApiRequest.conversationPut "c2" (trimStr "  New Title  ")]
      ∧ (renameConversation tagState0
          { id := "c2", title := "second", messages := [], tags := some ["alpha"],
            include_untagged := some false, model := some "ollama:llama2" }
          (some "  New Title  ")
          (FetchOutcome.ok
            { id := "c2", title := "New Title", messages := [],
              tags := some ["alpha"], include_untagged := some false,
              model := some "ollama:llama2" })).1.conversations[0]? =
        tagState0.conversations[0]? := by
  have h := renameConversation_replaces_only_match tagState0
    { id := "c2", title := "second", messages := [], tags := some ["alpha"],
      include_untagged := some false, model := some "ollama:llama2" }
    (some "  New Title  ")
    (FetchOutcome.ok
      { id := "c2", title := "New Title", messages := [], tags := some ["alpha"],
        include_untagged := some false, model := some "ollama:llama2" })
  refine ⟨h.2.1 "  New Title  " rfl (by decide), ?_⟩
  have h0 := (h.2.2 "  New Title  "
    { id := "c2", title := "New Title", messages := [], tags := some ["alpha"],
      include_untagged := some false, model := some "ollama:llama2" }
    rfl (by decide) rfl).2.1 0
    { id := "c1", title := "first", messages := [], tags := none,
      include_untagged := none, model := none }
    (by decide) (by decide)
  rw [h0]
  decide

/-! ## availableTagsForSelection (src/unnamed/part_004, lines 271-312)

The computed property.  The tag count of a tag is looked up in the
tagCounts object with a missing key counting as zero; with a blank search
query the unselected tags are sorted by descending count with ties broken
by localeCompare; with a non-blank query the Fuse.js search (or its
plain-substring fallback) selects among the unselected tags — it is
modelled by an abstract search function that picks its results from the
list it is given, and the wrapping of each tag in an item record is
dropped. -/

/-- Count of a tag in the tagCounts object; a missing key is zero, as in
the JavaScript expression tagCounts.value[b] || 0. -/
def countOf (tagCounts : List (String × Nat)) (t : String) : Nat :=
  match tagCounts.find? (fun p => p.1 = t) with
  | some p => p.2
  | none => 0

/-- The sort order of the blank-query branch: b sorts after a when its
count is smaller, with count ties broken by localeCompare ascending. -/
def tagOrder (tagCounts : List (String × Nat)) (a b : String) : Prop :=
  countOf tagCounts b < countOf tagCounts a ∨
    (countOf tagCounts a = countOf tagCounts b ∧ localeLe a b = true)

instance (tagCounts : List (String × Nat)) : DecidableRel (tagOrder tagCounts) :=
  fun a b => by unfold tagOrder; infer_instance

/-- The unselected available tags, in availableTags order. -/
def unselectedTags (s : TagQueryState) : List String :=
  s.availableTags.filter (fun tag => ¬ s.selectedTags.contains tag)

/-- The availableTagsForSelection computed property, parameterised by the
search function used on a non-blank query (Fuse.js search, or its
lowercase-substring fallback). -/
def availableTagsForSelection (s : TagQueryState)
    (search : List String → String → List String) : List String :=
  let unselected := unselectedTags s
  if trimStr s.tagSearchQuery = "" then
    List.insertionSort (tagOrder s.tagCounts) unselected
  else
    search unselected s.tagSearchQuery

theorem charListLe_total (a b : List Char) :
    charListLe a b = true ∨ charListLe b a = true := by
  induction a generalizing b with
  | nil => left; rfl
  | cons x xs ih =>
    cases b with
    | nil => right; rfl
    | cons y ys =>
      rcases lt_trichotomy x y with hxy | hxy | hxy
      · left; simp [charListLe, hxy]
      · subst hxy
        rcases ih ys with h | h
        · left; simp [charListLe, lt_irrefl, h]
        · right; simp [charListLe, lt_irrefl, h]
      · right; simp [charListLe, hxy]

theorem charListLe_trans (a b c : List Char) (hab : charListLe a b = true)
    (hbc : charListLe b c = true) : charListLe a c = true := by
  induction a generalizing b c with
  | nil => rfl
  | cons x xs ih =>
    cases b with
    | nil => simp [charListLe] at hab
    | cons y ys =>
      cases c with
      | nil => simp [charListLe] at hbc
      | cons z zs =>
        simp only [charListLe] at hab hbc ⊢
        rcases lt_trichotomy x y with hxy | hxy | hxy
        · rcases lt_trichotomy y z with hyz | hyz | hyz
          · simp [lt_trans hxy hyz]
          · subst hyz; simp [hxy]
          · simp [hxy, not_lt_of_lt hxy] at hab
            rcases lt_trichotomy x z with hxz | hxz | hxz
            · simp [hxz]
            · subst hxz
              simp [not_lt_of_lt hyz, hyz] at hbc
            · simp [not_lt_of_lt hyz, hyz] at hbc
        · subst hxy
          rcases lt_trichotomy x z with hxz | hxz | hxz
          · simp [hxz]
          · subst hxz
            simp [lt_irrefl] at hab hbc ⊢
            exact ih ys zs hab hbc
          · simp [not_lt_of_lt hxz, hxz] at hbc
        · simp [not_lt_of_lt hxy, hxy] at hab

instance (tagCounts : List (String × Nat)) : IsTotal String (tagOrder tagCounts) where
  total a b := by
    rcases lt_trichotomy (countOf tagCounts a) (countOf tagCounts b) with h | h | h
    · right; exact Or.inl h
    · rcases charListLe_total a.data b.data with hc | hc
      · left; exact Or.inr ⟨h, hc⟩
      · right; exact Or.inr ⟨h.symm, hc⟩
    · left; exact Or.inl h

instance (tagCounts : List (String × Nat)) : IsTrans String (tagOrder tagCounts) where
  trans a b c hab hbc := by
    rcases hab with hab | ⟨hab, hab2⟩
    · rcases hbc with hbc | ⟨hbc, _⟩
      · exact Or.inl (lt_trans hbc hab)
      · exact Or.inl (hbc ▸ hab)
    · rcases hbc with hbc | ⟨hbc, hbc2⟩
      · exact Or.inl (hab ▸ hbc)
      · exact Or.inr ⟨hab.trans hbc, charListLe_trans a.data b.data c.data hab2 hbc2⟩

/-- C8: availableTagsForSelection never offers a tag that is already
selected — whichever branch computes it — and with a blank search query
it is exactly the unselected available tags (a permutation of them),
ordered so that counts never increase along the list and count ties are
in ascending localeCompare order.  The search function of the non-blank
branch is assumed only to pick its results from the list it searches. -/
theorem availableTagsForSelection_spec (s : TagQueryState)
    (search : List String → String → List String)
    (hsearch : ∀ l q t, t ∈ search l q → t ∈ l) :
    (∀ t ∈ availableTagsForSelection s search, s.selectedTags.contains t = false)
      ∧ (trimStr s.tagSearchQuery = "" →
          (availableTagsForSelection s search).Perm (unselectedTags s)
            ∧ List.Pairwise (tagOrder s.tagCounts)
                (availableTagsForSelection s search)) := by
  have hmem : ∀ t, t ∈ unselectedTags s → s.selectedTags.contains t = false := by
    intro t ht
    have := (List.mem_filter.mp ht).2
    simpa using this
  constructor
  · intro t ht
    unfold availableTagsForSelection at ht
    by_cases hblank : trimStr s.tagSearchQuery = ""
    · rw [if_pos hblank] at ht
      exact hmem t ((List.perm_insertionSort (tagOrder s.tagCounts)
        (unselectedTags s)).mem_iff.mp ht)
    · rw [if_neg hblank] at ht
      exact hmem t (hsearch (unselectedTags s) s.tagSearchQuery t ht)
  · intro hblank
    constructor
    · simpa [availableTagsForSelection, hblank] using
        List.perm_insertionSort (tagOrder s.tagCounts) (unselectedTags s)
    · simpa [availableTagsForSelection, hblank] using
        List.sorted_insertionSort (tagOrder s.tagCounts) (unselectedTags s)

/-- C8 witness: with the concrete state (available tags alpha and beta,
beta selected, blank search) and the identity search function, the
computed list is exactly the sorted unselected tags. -/
theorem availableTagsForSelection_spec_witness :
    (∀ t ∈ availableTagsForSelection tagState0 (fun l _ => l),
        tagState0.selectedTags.contains t = false)
      ∧ ((availableTagsForSelection tagState0 (fun l _ => l)).Perm
            (unselectedTags tagState0)
          ∧ List.Pairwise (tagOrder tagState0.tagCounts)
              (availableTagsForSelection tagState0 (fun l _ => l))) := by
  have h := availableTagsForSelection_spec tagState0 (fun l _ => l)
    (fun l q t ht => ht)
  exact ⟨h.1, h.2 (by decide)⟩

/-! ## onMounted saved-model restoration (src/unnamed/part_004 lines
331-339; identical in src/unnamed/part_005 lines 199-206)

The fragment of the mounted hook that reads localStorage key
ragu_selected_model (an absent key is none) and applies it to the
selectedModel ref only when some available model has that value. -/

/-- The saved-model restoration step: a truthy saved value is applied to
selectedModel only when it equals the value of an available model. -/
def applySavedModel (selectedModel : String) (models : List ModelOption)
    (savedModel : Option String) : String :=
  match savedModel with
  | none => selectedModel
  | some saved =>
    if saved = "" then selectedModel
    else if models.any (fun m => m.value = saved) then saved
    else selectedModel

/-- The selectedModel value right after the mounted hook has processed the
saved model, starting from the initial empty-string ref. -/
def onMountedSelectedModel (savedModel : Option String) : String :=
  applySavedModel "" availableModels savedModel

/-- C9: after mounting, selectedModel is the empty string (the default
model) or the value of one of the available models; a stored value is
applied only when it equals some available model's value, and any other
stored value leaves selectedModel empty. -/
theorem onMounted_selectedModel_valid (savedModel : Option String) :
    (onMountedSelectedModel savedModel = ""
        ∨ (availableModels.any fun m =>
            m.value = onMountedSelectedModel savedModel) = true)
      ∧ (∀ v, savedModel = some v →
          (availableModels.any fun m => m.value = v) = false →
          onMountedSelectedModel savedModel = "")
      ∧ (∀ v, savedModel = some v →
          (availableModels.any fun m => m.value = v) = true →
          onMountedSelectedModel savedModel = v ∨ v = "") := by
  refine ⟨?_, ?_, ?_⟩
  · cases savedModel with
    | none => left; rfl
    | some saved =>
      by_cases hempty : saved = ""
      · left; simp [onMountedSelectedModel, applySavedModel, hempty]
      · by_cases hex : (availableModels.any fun m => m.value = saved) = true
        · right
          simp [onMountedSelectedModel, applySavedModel, hempty, hex]
        · left; simp [onMountedSelectedModel, applySavedModel, hempty, hex]
  · intro v hv hnone
    subst hv
    by_cases hempty : v = ""
    · simp [onMountedSelectedModel, applySavedModel, hempty]
    · simp [onMountedSelectedModel, applySavedModel, hempty, hnone]
  · intro v hv hex
    subst hv
    by_cases hempty : v = ""
    · right; exact hempty
    · left; simp [onMountedSelectedModel, applySavedModel, hempty, hex]

/-- C9 witness: a stored available model is restored, and a stored value
that matches no available model leaves selectedModel empty. -/
theorem onMounted_selectedModel_valid_witness :
    (onMountedSelectedModel (some "ollama:mistral") = ""
        ∨ (availableModels.any fun m =>
            m.value = onMountedSelectedModel (some "ollama:mistral")) = true)
      ∧ onMountedSelectedModel (some "not-a-model") = "" := by
  refine ⟨(onMounted_selectedModel_valid (some "ollama:mistral")).1, ?_⟩
  exact (onMounted_selectedModel_valid (some "not-a-model")).2.1
    "not-a-model" rfl (by decide)

/-! ## PDF upload component (src/app/static/js/pdf-upload.js)

handleFiles (lines 78-100) and uploadFiles (lines 123-191).  A browser
File is its name and MIME type; the per-file fetch outcomes of uploadFiles
are an explicit input list, paired positionally with the selected files;
Promise.all rejecting on a thrown fetch is modelled by the first thrown
outcome in the list winning.
-/

/-- A browser File as the component uses it: its name and MIME type. -/
structure JsFile where
  name : String
  type : String
deriving DecidableEq, Repr

/-- The per-file result record built by uploadFiles. -/
structure UploadResult where
  fileName : String
  success : Bool
  message : String
deriving DecidableEq, Repr

/-- The uploadStatus record: overall success flag, message, and the
per-file details (empty when the code sets no details field). -/
structure UploadStatus where
  success : Bool
  message : String
  details : List UploadResult
deriving DecidableEq, Repr

/-- The state of the PDFUpload component relevant to file handling. -/
structure PdfUploadState where
  files : List JsFile
  isUploading : Bool
  uploadStatus : Option UploadStatus
  selectedCollection : String
  tags : String
deriving DecidableEq, Repr

/-- The PDF filter of handleFiles: MIME type application/pdf, or a name
whose lowercase form ends with .pdf. -/
def isPdfFile (f : JsFile) : Bool :=
  f.type = "application/pdf" || endsWithStr (lowerStr f.name) ".pdf"

/-- The handleFiles handler: keep only PDF files; when none qualify, set
a failure status and leave the file list alone; otherwise append the
qualifying files in order and clear the status. -/
def handleFiles (s : PdfUploadState) (newFiles : List JsFile) : PdfUploadState :=
  let pdfFiles := newFiles.filter isPdfFile
  if pdfFiles.length = 0 then
    { s with uploadStatus := some {
        success := false
        message := "Only PDF files are allowed."
        details := [] } }
  else
    { s with files := s.files ++ pdfFiles, uploadStatus := none }

/-- Whether an awaited upload response is an ok response. -/
def isOkOutcome : FetchOutcome String → Bool
  | FetchOutcome.ok _ => true
  | _ => false

/-- The first thrown outcome in a response list, if any: the rejection
with which Promise.all rejects. -/
def firstThrown? : List (FetchOutcome String) → Option String
  | [] => none
  | FetchOutcome.thrown m :: _ => some m
  | _ :: rest => firstThrown? rest

/-- The per-file result of uploadFiles for one awaited response:
success mirrors response.ok, the message is the response body's message
on ok and its detail (or a fallback) otherwise.  The thrown case never
feeds a result because Promise.all rejects first. -/
def uploadResultFor (f : JsFile) (r : FetchOutcome String) : UploadResult :=
  match r with
  | FetchOutcome.ok m => { fileName := f.name, success := true, message := m }
  | FetchOutcome.notOk detail =>
    { fileName := f.name, success := false, message := jsOr detail "Upload failed" }
  | FetchOutcome.thrown _ =>
    { fileName := f.name, success := false, message := "Upload failed" }

/-- The uploadFiles handler, as a function of the pre-state and the list
of awaited per-file fetch outcomes (paired positionally with the files).
Returns the post-state and the trace of issued upload requests. -/
def uploadFiles (s : PdfUploadState) (responses : List (FetchOutcome String)) :
    PdfUploadState × List ApiRequest :=
  if s.files.length = 0 then
    ({ s with uploadStatus := some {
        success := false
        message := "Please select at least one PDF file to upload."
        details := [] } }, [])
  else if s.selectedCollection = "" then
    ({ s with uploadStatus := some {
        success := false
        message := "Please select a collection."
        details := [] } }, [])
  else
    let reqs := s.files.map fun f =>
      ApiRequest.documentUpload f.name s.selectedCollection
        (if s.tags = "" then none else some s.tags)
    match firstThrown? responses with
    | some m =>
      ({ s with
          isUploading := false
          uploadStatus := some {
            success := false
            message := "Error uploading files: " ++ m
            details := [] } }, reqs)
    | none =>
      let results := (s.files.zip responses).map fun p => uploadResultFor p.1 p.2
      let allSuccessful := results.all fun r => r.success
      ({ s with
          isUploading := false
          uploadStatus := some {
            success := allSuccessful
            message :=
              if allSuccessful then
                "Successfully uploaded " ++ toString results.length ++ " file(s)."
              else "Some files failed to upload. See details below."
            details := results }
          files := if allSuccessful then [] else s.files }, reqs)

theorem firstThrown?_none_all (rs : List (FetchOutcome String))
    (hnt : firstThrown? rs = none) (fs : List JsFile)
    (hlen : rs.length = fs.length) :
    ((fs.zip rs).map fun p => uploadResultFor p.1 p.2).all (fun r => r.success) =
      rs.all isOkOutcome := by
  induction fs generalizing rs with
  | nil =>
    cases rs with
    | nil => rfl
    | cons r rest => simp at hlen
  | cons f fs ih =>
    cases rs with
    | nil => simp at hlen
    | cons r rest =>
      have hlen2 : rest.length = fs.length := by simpa using hlen
      cases r with
      | ok m =>
        have hnt2 : firstThrown? rest = none := by simpa [firstThrown?] using hnt
        have hh := ih rest hnt2 hlen2
        simp only [List.zip_cons_cons, List.map_cons, List.all_cons]
        rw [hh]
        simp [uploadResultFor, isOkOutcome]
      | notOk detail =>
        simp [List.zip_cons_cons, List.map_cons, List.all_cons,
          uploadResultFor, isOkOutcome]
      | thrown m =>
        simp [firstThrown?] at hnt

theorem firstThrown?_some_not_all (rs : List (FetchOutcome String)) (m : String)
    (hthrown : firstThrown? rs = some m) : rs.all isOkOutcome = false := by
  induction rs with
  | nil => simp [firstThrown?] at hthrown
  | cons r rest ih =>
    cases r with
    | ok v =>
      have := ih (by simpa [firstThrown?] using hthrown)
      simp [isOkOutcome, this]
    | notOk detail => simp [isOkOutcome]
    | thrown v => simp [isOkOutcome]

/-- A concrete PDF-upload state for witnesses. -/
def pdfState0 : PdfUploadState :=
  { files := [{ name := "alpha.pdf", type := "application/pdf" }],
    isUploading := false,
    uploadStatus := none,
    selectedCollection := "docs",
    tags := "report" }

/-- C10: handleFiles appends, in their original order, exactly the input
files whose MIME type is application/pdf or whose lowercased name ends
with .pdf; when no input file qualifies it sets the failure status with
message "Only PDF files are allowed." and leaves the file list unchanged. -/
theorem handleFiles_appends_exactly_pdfs (s : PdfUploadState)
    (newFiles : List JsFile) :
    (newFiles.filter isPdfFile ≠ [] →
        (handleFiles s newFiles).files = s.files ++ newFiles.filter isPdfFile
          ∧ (handleFiles s newFiles).uploadStatus = none)
      ∧ (newFiles.filter isPdfFile = [] →
          (handleFiles s newFiles).files = s.files
            ∧ (handleFiles s newFiles).uploadStatus = some {
                success := false
                message := "Only PDF files are allowed."
                details := [] }) := by
  constructor
  · intro hne
    have hlen : ¬ (newFiles.filter isPdfFile).length = 0 := by
      simpa [List.length_eq_zero] using hne
    constructor <;> simp [handleFiles, hlen]
  · intro heq
    constructor <;> simp [handleFiles, heq]

/-- C10 witness: of a PDF file, an uppercase-named PDF file and a text
file, exactly the two PDFs are appended in order and the status clears. -/
theorem handleFiles_appends_exactly_pdfs_witness :
    (handleFiles pdfState0
        [{ name := "b.txt", type := "text/plain" },
         { name := "REPORT.PDF", type := "application/octet-stream" },
         { name := "c.pdf", type := "application/pdf" }]).files =
        pdfState0.files ++
          ([{ name := "b.txt", type := "text/plain" },
            { name := "REPORT.PDF", type := "application/octet-stream" },
            { name := "c.pdf", type := "application/pdf" }].filter isPdfFile)
      ∧ (handleFiles pdfState0
          [{ name := "b.txt", type := "text/plain" },
           { name := "REPORT.PDF", type := "application/octet-stream" },
           { name := "c.pdf", type := "application/pdf" }]).uploadStatus = none :=
  (handleFiles_appends_exactly_pdfs pdfState0
    [{ name := "b.txt", type := "text/plain" },
     { name := "REPORT.PDF", type := "application/octet-stream" },
     { name := "c.pdf", type := "application/pdf" }]).1 (by decide)

/-- C6: uploadFiles issues no request and sets a failure status with the
matching message when the file list is empty or no collection is
selected, leaving the file list unchanged; otherwise it issues exactly
one upload request per selected file, its status is successful exactly
when every upload response is ok, and the file list is cleared exactly
when every upload succeeded. -/
theorem uploadFiles_requests_and_status (s : PdfUploadState)
    (responses : List (FetchOutcome String))
    (hlen : responses.length = s.files.length) :
    (s.files = [] →
        (uploadFiles s responses).2 = []
          ∧ (uploadFiles s responses).1.uploadStatus.map UploadStatus.message =
              some "Please select at least one PDF file to upload."
          ∧ (uploadFiles s responses).1.uploadStatus.map UploadStatus.success =
              some false
          ∧ (uploadFiles s responses).1.files = s.files)
      ∧ (s.files ≠ [] → s.selectedCollection = "" →
          (uploadFiles s responses).2 = []
            ∧ (uploadFiles s responses).1.uploadStatus.map UploadStatus.message =
                some "Please select a collection."
            ∧ (uploadFiles s responses).1.uploadStatus.map UploadStatus.success =
                some false
            ∧ (uploadFiles s responses).1.files = s.files)
      ∧ (s.files ≠ [] → s.selectedCollection ≠ "" →
          (uploadFiles s responses).2.length = s.files.length
            ∧ (uploadFiles s responses).1.uploadStatus.map UploadStatus.success =
                some (responses.all isOkOutcome)
            ∧ ((uploadFiles s responses).1.files = [] ↔
                responses.all isOkOutcome = true)) := by
  refine ⟨?_, ?_, ?_⟩
  · intro hempty
    refine ⟨?_, ?_, ?_, ?_⟩ <;> simp [uploadFiles, hempty]
  · intro hne hcol
    have hlen0 : ¬ s.files.length = 0 := by
      simpa [List.length_eq_zero] using hne
    refine ⟨?_, ?_, ?_, ?_⟩ <;> simp [uploadFiles, hlen0, hcol]
  · intro hne hcol
    have hlen0 : ¬ s.files.length = 0 := by
      simpa [List.length_eq_zero] using hne
    cases hft : firstThrown? responses with
    | some m =>
      have hall := firstThrown?_some_not_all responses m hft
      refine ⟨?_, ?_, ?_⟩
      · simp [uploadFiles, hlen0, hcol, hft]
      · simp [uploadFiles, hlen0, hcol, hft, hall]
      · simp [uploadFiles, hlen0, hcol, hft, hall, hne]
    | none =>
      have hall := firstThrown?_none_all responses hft s.files hlen
      refine ⟨?_, ?_, ?_⟩
      · simp [uploadFiles, hlen0, hcol, hft]
      · simp [uploadFiles, hlen0, hcol, hft, hall]
      · by_cases hok : responses.all isOkOutcome = true
        · simp [uploadFiles, hlen0, hcol, hft, hall, hok]
        · simp [uploadFiles, hlen0, hcol, hft, hall, hok, hne]

/-- C6 witness: one selected file with an ok response issues one request,
reports success and clears the file list; the same state with a non-ok
response keeps the file and reports failure. -/
theorem uploadFiles_requests_and_status_witness :
    ((uploadFiles pdfState0 [FetchOutcome.ok "uploaded"]).2.length =
        pdfState0.files.length
      ∧ (uploadFiles pdfState0
          [FetchOutcome.ok "uploaded"]).1.uploadStatus.map UploadStatus.success =
          some ([FetchOutcome.ok "uploaded"].all isOkOutcome)
      ∧ ((uploadFiles pdfState0 [FetchOutcome.ok "uploaded"]).1.files = [] ↔
          [FetchOutcome.ok "uploaded"].all isOkOutcome = true))
      ∧ ((uploadFiles pdfState0 [FetchOutcome.notOk (some "boom")]).1.files = [] ↔
          [FetchOutcome.notOk (some "boom")].all isOkOutcome = true) := by
  refine ⟨(uploadFiles_requests_and_status pdfState0
    [FetchOutcome.ok "uploaded"] (by decide)).2.2 (by decide) (by decide), ?_⟩
  exact ((uploadFiles_requests_and_status pdfState0
    [FetchOutcome.notOk (some "boom")] (by decide)).2.2
      (by decide) (by decide)).2.2
